import Mathlib

/-!
# VolleyVision calibration-and-measurement engine: a shallow embedding

This file embeds the core logic of `src/sketch.js` (a p5.js volleyball
set-annotation sketch) in Lean 4 and proves properties of it.

Modelling conventions:
* JavaScript numbers are modelled as exact rationals (`ℚ`).  The source
  performs only field arithmetic (`+ - * / abs min max round`) on them.
* JavaScript `null` and the falsiness of `0` are modelled with `Option`
  plus explicit zero tests: `if (!pixelsPerMeter || !topLine) return null`
  becomes a `match` on the two options together with an `= 0` test on the
  scale, because in JavaScript both `null` and `0` are falsy.
* The mutable globals of the sketch (`trails`, `current`, `paletteIdx`,
  `calibStep`, …) are gathered into a `Session` structure, and the key
  handler becomes a pure function `Session → Session`.
* The `-Infinity` running-maximum sentinels of the source
  (`peakAboveM = -Infinity` in `computeAllRepMetrics`,
  `bestVal = -Infinity` in `renderStatsTable`) are modelled with `Option`
  accumulators: every defined value compares greater than `-Infinity`,
  so a `none` accumulator is always replaced by the first defined value.
-/

namespace VolleyVision

/-- Men's beach volleyball net height in metres (`NET_HEIGHT_M` in the source). -/
def NET_HEIGHT_M : ℚ := 243 / 100

/-- A pixel point, as produced by a mouse click (`{x: mouseX, y: mouseY}`). -/
structure Pt where
  x : ℚ
  y : ℚ
deriving DecidableEq, Repr

/-- A recorded rep point: pixel coordinates plus the video timestamp
(`{x, y, t: vid.time()}`). -/
structure RepPoint where
  x : ℚ
  y : ℚ
  t : ℚ
deriving DecidableEq, Repr

/-- The top tape line `y = m*x + b` (`topLine = { m, b }` in the source). -/
structure TopLine where
  m : ℚ
  b : ℚ
deriving DecidableEq, Repr

/-- The four calibration clicks, in click order LB, LT, RB, RT. -/
structure Corners where
  LB : Pt
  LT : Pt
  RB : Pt
  RT : Pt
deriving DecidableEq, Repr

/-- The derived calibration geometry: the pixel-per-metre scale together
with the top tape line. -/
structure Geometry where
  pixelsPerMeter : ℚ
  topLine : TopLine
deriving DecidableEq, Repr

/-- Pixel height of the net at the left antenna:
`Math.abs(calibPts.LT.y - calibPts.LB.y)`. -/
def hLeftOf (c : Corners) : ℚ := |c.LT.y - c.LB.y|

/-- Pixel height of the net at the right antenna:
`Math.abs(calibPts.RT.y - calibPts.RB.y)`. -/
def hRightOf (c : Corners) : ℚ := |c.RT.y - c.RB.y|

/-- `finalizeCalibration` from the source: builds the px→m scale and the
top-of-net line from the four clicks.  Note the source has no guard on the
slope denominator `RT.x - LT.x`; in this exact-rational embedding a zero
denominator follows Lean's `x / 0 = 0` convention, where JavaScript would
produce `Infinity`/`NaN` — either way, no error is raised. -/
def finalizeCalibration (c : Corners) : Geometry :=
  let hAvgPx := (hLeftOf c + hRightOf c) / 2
  let m := (c.RT.y - c.LT.y) / (c.RT.x - c.LT.x)
  let b := c.LT.y - m * c.LT.x
  { pixelsPerMeter := hAvgPx / NET_HEIGHT_M, topLine := ⟨m, b⟩ }

/-- `metersAboveNetAtPoint(x, y)` from the source.  The guard
`if (!pixelsPerMeter || !topLine) return null` treats a missing *or zero*
scale as absent (in JavaScript `0` is falsy). -/
def metersAboveNetAtPoint (pixelsPerMeter : Option ℚ) (topLine : Option TopLine)
    (x y : ℚ) : Option ℚ :=
  match pixelsPerMeter, topLine with
  | some ppm, some tl =>
      if ppm = 0 then none
      else
        let yTop := tl.m * x + tl.b
        let dyPx := yTop - y
        some (dyPx / ppm)
  | _, _ => none

/-- `metersHorizDistance(p1, p2)` from the source; the guard
`if (!pixelsPerMeter) return null` again treats a zero scale as absent. -/
def metersHorizDistance (pixelsPerMeter : Option ℚ) (p1 p2 : RepPoint) : Option ℚ :=
  match pixelsPerMeter with
  | some ppm =>
      if ppm = 0 then none
      else some (|p2.x - p1.x| / ppm)
  | none => none

/-- Trail direction indicator: `'→'`, `'←'` or `'•'` in the source. -/
inductive Direction where
  | right
  | left
  | dot
deriving DecidableEq, Repr

/-- Per-rep metrics attached by `computeAllRepMetrics`
(`rep.peakM`, `rep.aboveNetCM`, `rep.widthM`, `rep.direction`). -/
structure Metrics where
  peakM : Option ℚ
  aboveNetCM : Option ℤ
  widthM : Option ℚ
  direction : Option Direction
deriving DecidableEq, Repr

/-- The running maximum of `metersAboveNetAtPoint` over the points of a rep
(`peakAboveM` in `computeAllRepMetrics`).  The source starts from
`-Infinity` and keeps values `a` with `a != null && a > peakAboveM`;
here the `-Infinity` sentinel is a `none` accumulator. -/
def peakAboveFold (ppm : Option ℚ) (tl : Option TopLine)
    (pts : List RepPoint) : Option ℚ :=
  pts.foldl (fun acc p =>
    match metersAboveNetAtPoint ppm tl p.x p.y with
    | none => acc
    | some a =>
      match acc with
      | none => some a
      | some v => if v < a then some a else acc) none

/-- Placeholder rep point; never actually read, because the accessors that
use it are only reached when the rep has at least two points. -/
def defaultRepPoint : RepPoint := ⟨0, 0, 0⟩

/-- The body of the `computeAllRepMetrics` loop for a single rep: peak
height, above-net centimetres, width and direction from the rep's points. -/
def computeRepMetrics (ppm : Option ℚ) (tl : Option TopLine)
    (pts : List RepPoint) : Metrics :=
  if pts.length < 2 then ⟨none, none, none, none⟩
  else
    let peakAbove := peakAboveFold ppm tl pts
    let start := pts.headD defaultRepPoint
    let stop := pts.getLastD defaultRepPoint
    let wM := metersHorizDistance ppm start stop
    let dir : Direction :=
      if start.x < stop.x then .right else if stop.x < start.x then .left else .dot
    match peakAbove with
    | none => ⟨none, none, wM, some dir⟩
    | some pa => ⟨some (NET_HEIGHT_M + pa), some (round (pa * 100)), wM, some dir⟩

/-- An RGB triple from the palette. -/
def Color := ℕ × ℕ × ℕ
deriving DecidableEq, Repr

/-- The fixed seven-colour palette (`PALETTE` in the source). -/
def PALETTE : List Color :=
  [(255, 80, 80), (255, 160, 0), (255, 220, 0), (0, 190, 255),
   (80, 220, 160), (180, 120, 255), (255, 100, 200)]

/-- `nextColour` from the source: reads `PALETTE[paletteIdx % PALETTE.length]`
and post-increments the cursor; returned as (colour, new cursor). -/
def nextColour (paletteIdx : ℕ) : Color × ℕ :=
  (PALETTE.getD (paletteIdx % PALETTE.length) (0, 0, 0), paletteIdx + 1)

/-- A rep: the clicked points together with a display colour
(`{ points: [...], color: [...] }`). -/
structure Rep where
  points : List RepPoint
  color : Color
deriving DecidableEq, Repr

/-- A fresh empty rep with the next palette colour, as built by
`current = { points: [], color: nextColour() }`, paired with the
post-incremented cursor. -/
def freshRep (paletteIdx : ℕ) : Rep × ℕ :=
  let c := nextColour paletteIdx
  (⟨[], c.1⟩, c.2)

/-- The four nullable calibration click slots
(`calibPts = { LB: null, LT: null, RB: null, RT: null }`). -/
structure CalibPts where
  LB : Option Pt
  LT : Option Pt
  RB : Option Pt
  RT : Option Pt
deriving DecidableEq, Repr

/-- The mutable global state of the sketch that the core logic touches.
Video playback position/pause state is included because the key handler
writes it (`vid.time(...)`, `vid.play()`, `vid.pause()`); rendering-only
state (buttons, HTML contents) is reduced to the `statsShown` flag. -/
structure Session where
  trails : List Rep
  current : Rep
  paletteIdx : ℕ
  showAllAtEnd : Bool
  showTrails : Bool
  started : Bool
  ready : Bool
  warmed : Bool
  calibStep : ℕ
  calibPts : CalibPts
  pixelsPerMeter : Option ℚ
  topLine : Option TopLine
  statsShown : Bool
  videoTime : ℚ
  videoPaused : Bool
  videoDuration : ℚ
deriving DecidableEq, Repr

/-- The keys the `keyPressed` handler dispatches on; `other` is any key
with no branch.  Letter keys match case-insensitively in the source, so a
single constructor stands for both cases. -/
inductive Key where
  | space
  | keyN
  | keyZ
  | comma
  | period
  | enter
  | keyS
  | keyR
  | other
deriving DecidableEq, Repr

/-- `restartVideoHidden` from the source (used by the `S` key and the
restart button). -/
def restartVideoHidden (s : Session) : Session :=
  let c := freshRep s.paletteIdx
  { s with showAllAtEnd := false, showTrails := false, statsShown := false,
           current := c.1, paletteIdx := c.2,
           videoTime := 0, videoPaused := false, started := true }

/-- `keyPressed` from the source as a pure state transformer.  The first
line of the handler is `if (calibStep < 4) return;`, so every key is
ignored until calibration has consumed all four clicks.  The `R` branch
sets `ready = false` and then `ready = true` before returning, hence the
net effect `ready := true`. -/
def keyPressed (k : Key) (s : Session) : Session :=
  if s.calibStep < 4 then s
  else
    match k with
    | .space => { s with videoPaused := !s.videoPaused }
    | .keyN =>
        let s1 := if s.current.points.isEmpty then s
                  else { s with trails := s.trails ++ [s.current] }
        let c := freshRep s1.paletteIdx
        { s1 with current := c.1, paletteIdx := c.2 }
    | .keyZ =>
        { s with current := { s.current with points := s.current.points.dropLast } }
    | .comma =>
        if s.showAllAtEnd then s
        else { s with videoPaused := true,
                      videoTime := max 0 (s.videoTime - 1 / 30) }
    | .period =>
        if s.showAllAtEnd then s
        else { s with videoPaused := true,
                      videoTime := min s.videoDuration (s.videoTime + 1 / 30) }
    | .enter =>
        let c := freshRep s.paletteIdx
        { s with showAllAtEnd := false, showTrails := false, statsShown := false,
                 current := c.1, paletteIdx := c.2,
                 videoTime := 0, videoPaused := false }
    | .keyS => restartVideoHidden s
    | .keyR =>
        let c := freshRep s.paletteIdx
        { s with trails := [], current := c.1, paletteIdx := c.2,
                 showAllAtEnd := false, started := false, ready := true,
                 calibStep := 0, calibPts := ⟨none, none, none, none⟩,
                 pixelsPerMeter := none, topLine := none, warmed := false,
                 statsShown := false, videoTime := 0, videoPaused := true }
    | .other => s

/-- The summary accumulators of `renderStatsTable`: the best-peak tracker
(`bestIdx = -1`, `bestVal = -Infinity` modelled as a `none` pair) and the
sum/count pairs for the two averages. -/
structure AggState where
  best : Option (ℕ × ℚ)
  sumPeak : ℚ
  nPeak : ℕ
  sumWidth : ℚ
  nWidth : ℕ
deriving DecidableEq, Repr

/-- Initial accumulator state of the `renderStatsTable` loop. -/
def initAgg : AggState := ⟨none, 0, 0, 0, 0⟩

/-- One iteration of the `renderStatsTable` summary loop on rep `i`:
`if (r.peakM != null) { if (r.peakM > bestVal) ...; sumPeak += ...; nPeak++ }`
then `if (r.widthM != null) { sumWidth += ...; nWidth++ }`. -/
def aggStep (st : AggState) (i : ℕ) (m : Metrics) : AggState :=
  let st1 :=
    match m.peakM with
    | none => st
    | some v =>
        let best1 :=
          match st.best with
          | none => some (i, v)
          | some jw => if jw.2 < v then some (i, v) else some jw
        { st with best := best1, sumPeak := st.sumPeak + v, nPeak := st.nPeak + 1 }
  match m.widthM with
  | none => st1
  | some w => { st1 with sumWidth := st1.sumWidth + w, nWidth := st1.nWidth + 1 }

/-- The `for (let i = 0; i < trails.length; i++)` summary loop. -/
def aggLoop : ℕ → AggState → List Metrics → AggState
  | _, st, [] => st
  | i, st, m :: rest => aggLoop (i + 1) (aggStep st i m) rest

/-- The summary accumulators after scanning all reps, in rep order. -/
def aggregate (ms : List Metrics) : AggState := aggLoop 0 initAgg ms

/-- `avgPeak = nPeak ? (sumPeak / nPeak) : null` from `renderStatsTable`. -/
def averagePeakM (ms : List Metrics) : Option ℚ :=
  let st := aggregate ms
  if st.nPeak = 0 then none else some (st.sumPeak / (st.nPeak : ℚ))

/-- `avgWidth = nWidth ? (sumWidth / nWidth) : null` from `renderStatsTable`. -/
def averageWidthM (ms : List Metrics) : Option ℚ :=
  let st := aggregate ms
  if st.nWidth = 0 then none else some (st.sumWidth / (st.nWidth : ℚ))

/-- The best-peak tracker after the scan: `none` models `bestIdx = -1`
(no summary line rendered), `some (i, v)` models `bestIdx = i, bestVal = v`. -/
def bestPeakRep (ms : List Metrics) : Option (ℕ × ℚ) := (aggregate ms).best

/-! ## Concrete instances used by the verification scenarios -/

/-- The calibration corners of the end-to-end scenario:
LB=(100,400), LT=(100,100), RB=(700,420), RT=(700,120). -/
def corners1 : Corners := ⟨⟨100, 400⟩, ⟨100, 100⟩, ⟨700, 420⟩, ⟨700, 120⟩⟩

/-- The geometry derived from `corners1`. -/
def geom1 : Geometry := finalizeCalibration corners1

/-- Degenerate calibration corners: both top clicks (and here also both
bottom clicks) share the x-coordinate 100, so the slope denominator
`RT.x - LT.x` is zero. -/
def degenCorners : Corners := ⟨⟨100, 400⟩, ⟨100, 100⟩, ⟨100, 420⟩, ⟨100, 120⟩⟩

/-- Calibration corners in which each top click sits at the same pixel `y`
as the matching bottom click, so both antenna pixel heights are zero and
the derived scale is zero. -/
def flatCorners : Corners := ⟨⟨100, 400⟩, ⟨100, 400⟩, ⟨700, 420⟩, ⟨700, 420⟩⟩

/-- A mid-calibration session (two of four clicks consumed). -/
def calibSession : Session :=
  { trails := [], current := ⟨[], (255, 80, 80)⟩, paletteIdx := 1,
    showAllAtEnd := false, showTrails := true, started := false, ready := true,
    warmed := true, calibStep := 2,
    calibPts := ⟨some ⟨100, 400⟩, some ⟨100, 100⟩, none, none⟩,
    pixelsPerMeter := none, topLine := none, statsShown := false,
    videoTime := 0, videoPaused := true, videoDuration := 10 }

/-- A fully calibrated session whose active rep has zero points. -/
def emptyRepSession : Session :=
  { trails := [⟨[⟨10, 20, 1⟩, ⟨30, 40, 2⟩], (255, 80, 80)⟩],
    current := ⟨[], (255, 160, 0)⟩, paletteIdx := 2,
    showAllAtEnd := false, showTrails := true, started := true, ready := true,
    warmed := true, calibStep := 4,
    calibPts := ⟨some ⟨100, 400⟩, some ⟨100, 100⟩, some ⟨700, 420⟩, some ⟨700, 120⟩⟩,
    pixelsPerMeter := some (10000 / 81), topLine := some ⟨1 / 30, 290 / 3⟩,
    statsShown := false, videoTime := 3, videoPaused := true, videoDuration := 10 }

/-! ## Theorems -/

/-- For any fold step that fixes the accumulator, the fold is the identity. -/
theorem foldl_fixed_of_step_id {α β : Type} (f : β → α → β) (h : ∀ b a, f b a = b) :
    ∀ (l : List α) (b : β), l.foldl f b = b
  | [], _ => rfl
  | a :: l, b => by rw [List.foldl_cons, h, foldl_fixed_of_step_id f h l]

/-- With a zero scale, `metersAboveNetAtPoint` is `none` everywhere. -/
theorem metersAboveNetAtPoint_zero_scale (tl : Option TopLine) (x y : ℚ) :
    metersAboveNetAtPoint (some 0) tl x y = none := by
  cases tl <;> simp [metersAboveNetAtPoint]

/-- With a zero scale, the running peak maximum never leaves `none`. -/
theorem peakAboveFold_zero_scale (tl : Option TopLine) (pts : List RepPoint) :
    peakAboveFold (some 0) tl pts = none := by
  unfold peakAboveFold
  exact foldl_fixed_of_step_id _
    (fun b a => by rw [metersAboveNetAtPoint_zero_scale]) pts none

/-- C4: a rep with fewer than 2 points yields all-null metrics, for any
geometry. -/
theorem short_rep_all_null_metrics (ppm : Option ℚ) (tl : Option TopLine)
    (pts : List RepPoint) (h : pts.length < 2) :
    computeRepMetrics ppm tl pts = ⟨none, none, none, none⟩ := by
  simp [computeRepMetrics, h]

/-- Witness for C4: the one-point rep, under a live geometry. -/
theorem short_rep_all_null_metrics_witness :
    ([⟨400, 50, 1⟩] : List RepPoint).length < 2 ∧
    computeRepMetrics (some (10000 / 81)) (some ⟨1 / 30, 290 / 3⟩)
      [⟨400, 50, 1⟩] = ⟨none, none, none, none⟩ :=
  ⟨by decide,
   short_rep_all_null_metrics (some (10000 / 81)) (some ⟨1 / 30, 290 / 3⟩)
     [⟨400, 50, 1⟩] (by decide)⟩

/-- C7: a point exactly on the tape line yields `metersAboveNet = 0`,
for every complete geometry (both components present, nonzero scale). -/
theorem tape_line_zero (ppm : ℚ) (tl : TopLine) (x : ℚ) (h : ppm ≠ 0) :
    metersAboveNetAtPoint (some ppm) (some tl) x (tl.m * x + tl.b) = some 0 := by
  simp [metersAboveNetAtPoint, h]

/-- Witness for C7: the scenario geometry at x = 400. -/
theorem tape_line_zero_witness :
    (10000 / 81 : ℚ) ≠ 0 ∧
    metersAboveNetAtPoint (some (10000 / 81)) (some ⟨1 / 30, 290 / 3⟩) 400
      ((1 / 30 : ℚ) * 400 + 290 / 3) = some 0 :=
  ⟨by norm_num, tape_line_zero (10000 / 81) ⟨1 / 30, 290 / 3⟩ 400 (by norm_num)⟩

/-- C9: while calibration is incomplete (`calibStep < 4`), every keyboard
command leaves the session unchanged. -/
theorem keyPressed_noop_during_calibration (k : Key) (s : Session)
    (h : s.calibStep < 4) :
    keyPressed k s = s := by
  simp [keyPressed, h]

/-- Witness for C9: the full-reset key during calibration. -/
theorem keyPressed_noop_during_calibration_witness :
    calibSession.calibStep < 4 ∧ keyPressed Key.keyR calibSession = calibSession :=
  ⟨by decide, keyPressed_noop_during_calibration Key.keyR calibSession (by decide)⟩

/-- C2 (code bug): the source has no degenerate-calibration guard.  When the
two top clicks share an x-coordinate, the slope denominator is zero, yet
`finalizeCalibration` still returns a geometry instead of raising a
`DegenerateCalibration` condition.  (In JavaScript the slope evaluates to
`Infinity`; in this exact-rational embedding division by zero yields `0`.
Either way, no error path exists in the code.) -/
theorem finalizeCalibration_unguarded_degenerate :
    degenCorners.RT.x - degenCorners.LT.x = 0 ∧
    finalizeCalibration degenCorners = ⟨10000 / 81, ⟨0, 100⟩⟩ := by
  refine ⟨by norm_num [degenCorners], ?_⟩
  simp only [finalizeCalibration, degenCorners, hLeftOf, hRightOf, NET_HEIGHT_M,
    Geometry.mk.injEq, TopLine.mk.injEq]
  norm_num

/-- Counterexample for C3: on a calibrated session whose active rep is
empty, the `N` key is *not* a no-op — the colour cursor advances and the
active rep is replaced by one with the next palette colour. -/
theorem endRep_empty_not_noop :
    keyPressed Key.keyN emptyRepSession ≠ emptyRepSession := by
  intro h
  have h2 := congrArg Session.paletteIdx h
  simp [keyPressed, emptyRepSession, freshRep, nextColour] at h2

/-- C3 amended: when calibration is complete and the active rep is empty,
the `N` key appends nothing to the completed reps and leaves the active
point list empty, but replaces the active rep with a fresh empty rep
carrying the next palette colour and advances the colour cursor by one;
every other session field is unchanged.  (While `calibStep < 4` the key
is ignored entirely.) -/
theorem endRep_empty_amended (s : Session) (h4 : ¬ s.calibStep < 4)
    (hemp : s.current.points = []) :
    keyPressed Key.keyN s =
      { s with current := (freshRep s.paletteIdx).1,
               paletteIdx := s.paletteIdx + 1 } := by
  simp [keyPressed, h4, hemp, freshRep, nextColour]

/-- Witness for C3's amended theorem, on the same session as the
counterexample. -/
theorem endRep_empty_amended_witness :
    ¬ emptyRepSession.calibStep < 4 ∧ emptyRepSession.current.points = [] ∧
    keyPressed Key.keyN emptyRepSession =
      { emptyRepSession with current := (freshRep emptyRepSession.paletteIdx).1,
                             paletteIdx := emptyRepSession.paletteIdx + 1 } :=
  ⟨by decide, rfl, endRep_empty_amended emptyRepSession (by decide) rfl⟩

/-- C10: when calibration completes with each top click at the same pixel
`y` as the matching bottom click, the derived scale is zero; the geometry
queries then return `null` exactly as they do for missing geometry, and
every scale-dependent metric of every rep is `null`. -/
theorem zero_scale_all_null (c : Corners)
    (hL : c.LT.y = c.LB.y) (hR : c.RT.y = c.RB.y) :
    (finalizeCalibration c).pixelsPerMeter = 0 ∧
    (∀ x y, metersAboveNetAtPoint (some (finalizeCalibration c).pixelsPerMeter)
        (some (finalizeCalibration c).topLine) x y = none) ∧
    (∀ p1 p2, metersHorizDistance (some (finalizeCalibration c).pixelsPerMeter)
        p1 p2 = none) ∧
    (∀ pts,
      (computeRepMetrics (some (finalizeCalibration c).pixelsPerMeter)
        (some (finalizeCalibration c).topLine) pts).peakM = none ∧
      (computeRepMetrics (some (finalizeCalibration c).pixelsPerMeter)
        (some (finalizeCalibration c).topLine) pts).aboveNetCM = none ∧
      (computeRepMetrics (some (finalizeCalibration c).pixelsPerMeter)
        (some (finalizeCalibration c).topLine) pts).widthM = none) := by
  have hz : (finalizeCalibration c).pixelsPerMeter = 0 := by
    simp [finalizeCalibration, hLeftOf, hRightOf, hL, hR]
  refine ⟨hz, ?_, ?_, ?_⟩
  · intro x y
    rw [hz]
    exact metersAboveNetAtPoint_zero_scale _ x y
  · intro p1 p2
    rw [hz]
    simp [metersHorizDistance]
  · intro pts
    rw [hz]
    by_cases hlen : pts.length < 2
    · simp [computeRepMetrics, hlen]
    · simp [computeRepMetrics, hlen, peakAboveFold_zero_scale, metersHorizDistance]

/-- Witness for C10: the flat corners, with a two-point rep. -/
theorem zero_scale_all_null_witness :
    flatCorners.LT.y = flatCorners.LB.y ∧ flatCorners.RT.y = flatCorners.RB.y ∧
    (finalizeCalibration flatCorners).pixelsPerMeter = 0 ∧
    (computeRepMetrics (some (finalizeCalibration flatCorners).pixelsPerMeter)
      (some (finalizeCalibration flatCorners).topLine)
      [⟨400, 50, 1⟩, ⟨500, 300, 2⟩]).peakM = none ∧
    (computeRepMetrics (some (finalizeCalibration flatCorners).pixelsPerMeter)
      (some (finalizeCalibration flatCorners).topLine)
      [⟨400, 50, 1⟩, ⟨500, 300, 2⟩]).widthM = none :=
  ⟨rfl, rfl, (zero_scale_all_null flatCorners rfl rfl).1,
   ((zero_scale_all_null flatCorners rfl rfl).2.2.2 [⟨400, 50, 1⟩, ⟨500, 300, 2⟩]).1,
   ((zero_scale_all_null flatCorners rfl rfl).2.2.2 [⟨400, 50, 1⟩, ⟨500, 300, 2⟩]).2.2⟩

/-- C8: for a derived geometry with a live (nonzero) scale, at a fixed x
the value of `metersAboveNetAtPoint` strictly decreases as pixel y
increases. -/
theorem metersAboveNet_strictly_decreasing (c : Corners) (x y1 y2 : ℚ)
    (hppm : (finalizeCalibration c).pixelsPerMeter ≠ 0) (hy : y1 < y2) :
    ∃ a1 a2,
      metersAboveNetAtPoint (some (finalizeCalibration c).pixelsPerMeter)
        (some (finalizeCalibration c).topLine) x y1 = some a1 ∧
      metersAboveNetAtPoint (some (finalizeCalibration c).pixelsPerMeter)
        (some (finalizeCalibration c).topLine) x y2 = some a2 ∧
      a2 < a1 := by
  have hval : (finalizeCalibration c).pixelsPerMeter
      = (hLeftOf c + hRightOf c) / 2 / NET_HEIGHT_M := rfl
  have hnn : 0 ≤ (finalizeCalibration c).pixelsPerMeter := by
    rw [hval]
    unfold hLeftOf hRightOf NET_HEIGHT_M
    positivity
  have hpos : 0 < (finalizeCalibration c).pixelsPerMeter :=
    lt_of_le_of_ne hnn (Ne.symm hppm)
  refine ⟨((finalizeCalibration c).topLine.m * x + (finalizeCalibration c).topLine.b - y1)
            / (finalizeCalibration c).pixelsPerMeter,
          ((finalizeCalibration c).topLine.m * x + (finalizeCalibration c).topLine.b - y2)
            / (finalizeCalibration c).pixelsPerMeter, ?_, ?_, ?_⟩
  · simp [metersAboveNetAtPoint, hppm]
  · simp [metersAboveNetAtPoint, hppm]
  · apply div_lt_div_of_pos_right ?_ hpos
    linarith

/-- C1: the end-to-end scenario.  From corners LB=(100,400), LT=(100,100),
RB=(700,420), RT=(700,120) the derivation yields hLeft = hRight = 300,
pixelsPerMeter = 300/2.43, slope = 1/30 and intercept = 290/3; the point
(400,50) sits 0.486 m above the tape; and a rep whose only two points are
(400,50) and any second point strictly below the tape line's value at its
x has peakHeightM = 2.916 and aboveNetCM = 49. -/
theorem end_to_end_scenario (p2 : RepPoint) (t : ℚ)
    (hp : geom1.topLine.m * p2.x + geom1.topLine.b < p2.y) :
    hLeftOf corners1 = 300 ∧ hRightOf corners1 = 300 ∧
    geom1.pixelsPerMeter = 300 / NET_HEIGHT_M ∧
    geom1.topLine.m = 1 / 30 ∧ geom1.topLine.b = 290 / 3 ∧
    metersAboveNetAtPoint (some geom1.pixelsPerMeter) (some geom1.topLine) 400 50
      = some (486 / 1000) ∧
    (computeRepMetrics (some geom1.pixelsPerMeter) (some geom1.topLine)
      [⟨400, 50, t⟩, p2]).peakM = some (2916 / 1000) ∧
    (computeRepMetrics (some geom1.pixelsPerMeter) (some geom1.topLine)
      [⟨400, 50, t⟩, p2]).aboveNetCM = some 49 := by
  have hppm : geom1.pixelsPerMeter = 10000 / 81 := by
    norm_num [geom1, corners1, finalizeCalibration, hLeftOf, hRightOf, NET_HEIGHT_M]
  have hm : geom1.topLine.m = 1 / 30 := by
    norm_num [geom1, corners1, finalizeCalibration]
  have hb : geom1.topLine.b = 290 / 3 := by
    norm_num [geom1, corners1, finalizeCalibration]
  have hne : geom1.pixelsPerMeter ≠ 0 := by rw [hppm]; norm_num
  have h1 : metersAboveNetAtPoint (some geom1.pixelsPerMeter) (some geom1.topLine)
      400 50 = some (486 / 1000) := by
    simp only [metersAboveNetAtPoint]
    rw [hppm, hm, hb]
    norm_num
  have h2 : metersAboveNetAtPoint (some geom1.pixelsPerMeter) (some geom1.topLine)
      p2.x p2.y
      = some ((geom1.topLine.m * p2.x + geom1.topLine.b - p2.y)
          / geom1.pixelsPerMeter) := by
    simp [metersAboveNetAtPoint, hne]
  have ha2 : (geom1.topLine.m * p2.x + geom1.topLine.b - p2.y)
      / geom1.pixelsPerMeter < 0 := by
    apply div_neg_of_neg_of_pos
    · linarith
    · rw [hppm]; norm_num
  have hfold : peakAboveFold (some geom1.pixelsPerMeter) (some geom1.topLine)
      [⟨400, 50, t⟩, p2] = some (486 / 1000) := by
    unfold peakAboveFold
    simp only [List.foldl_cons, List.foldl_nil, h1, h2]
    rw [if_neg (not_lt.mpr (le_of_lt (lt_trans ha2 (by norm_num))))]
  refine ⟨by norm_num [hLeftOf, corners1], by norm_num [hRightOf, corners1],
          by rw [hppm]; norm_num [NET_HEIGHT_M], hm, hb, h1, ?_, ?_⟩
  · simp [computeRepMetrics, hfold]
    norm_num [NET_HEIGHT_M]
  · simp [computeRepMetrics, hfold]
    norm_num [round_eq]

/-- Witness for C1: second point (500,300), below the tape value 340/3. -/
theorem end_to_end_scenario_witness :
    geom1.topLine.m * (500 : ℚ) + geom1.topLine.b < 300 ∧
    (computeRepMetrics (some geom1.pixelsPerMeter) (some geom1.topLine)
      [⟨400, 50, 1⟩, ⟨500, 300, 2⟩]).peakM = some (2916 / 1000) ∧
    (computeRepMetrics (some geom1.pixelsPerMeter) (some geom1.topLine)
      [⟨400, 50, 1⟩, ⟨500, 300, 2⟩]).aboveNetCM = some 49 :=
  ⟨by norm_num [geom1, corners1, finalizeCalibration],
   (end_to_end_scenario ⟨500, 300, 2⟩ 1
      (by norm_num [geom1, corners1, finalizeCalibration])).2.2.2.2.2.2.1,
   (end_to_end_scenario ⟨500, 300, 2⟩ 1
      (by norm_num [geom1, corners1, finalizeCalibration])).2.2.2.2.2.2.2⟩

/-- The summary loop accumulates exactly the defined peaks and widths:
running sums and counts over the `filterMap`s of the metrics list. -/
theorem aggLoop_sums (ms : List Metrics) : ∀ (i : ℕ) (st : AggState),
    (aggLoop i st ms).sumPeak = st.sumPeak + (ms.filterMap Metrics.peakM).sum ∧
    (aggLoop i st ms).nPeak = st.nPeak + (ms.filterMap Metrics.peakM).length ∧
    (aggLoop i st ms).sumWidth = st.sumWidth + (ms.filterMap Metrics.widthM).sum ∧
    (aggLoop i st ms).nWidth = st.nWidth + (ms.filterMap Metrics.widthM).length := by
  induction ms with
  | nil => intro i st; simp [aggLoop]
  | cons m rest ih =>
      intro i st
      rw [aggLoop]
      obtain ⟨e1, e2, e3, e4⟩ := ih (i + 1) (aggStep st i m)
      rw [e1, e2, e3, e4]
      rcases hm : m.peakM with _ | v <;> rcases hw : m.widthM with _ | w <;>
        simp [aggStep, hm, hw, List.filterMap_cons, add_assoc, add_comm, add_left_comm]

/-- An element found by optional indexing is a member of the list. -/
theorem mem_of_getElem?_some {α : Type} {l : List α} {n : ℕ} {a : α}
    (h : l[n]? = some a) : a ∈ l := by
  obtain ⟨hlt, he⟩ := List.getElem?_eq_some.mp h
  exact he ▸ List.getElem_mem hlt

/-- Indexing into `l ++ [a]` either lands in `l` or at the appended slot. -/
theorem getElem?_concat_cases {α : Type} {l : List α} {a : α} {j : ℕ} {x : α}
    (h : (l ++ [a])[j]? = some x) :
    (j < l.length ∧ l[j]? = some x) ∨ (j = l.length ∧ x = a) := by
  rw [List.getElem?_append] at h
  by_cases hj : j < l.length
  · rw [if_pos hj] at h
    exact Or.inl ⟨hj, h⟩
  · rw [if_neg hj] at h
    by_cases hje : j = l.length
    · right
      refine ⟨hje, ?_⟩
      rw [hje, Nat.sub_self] at h
      simpa using h.symm
    · exfalso
      rw [List.getElem?_len_le] at h
      · exact Option.noConfusion h
      · simp only [List.length_singleton]
        omega

/-- The best-peak field is untouched by a rep with no defined peak. -/
theorem aggStep_best_none (st : AggState) (i : ℕ) (m : Metrics)
    (hm : m.peakM = none) : (aggStep st i m).best = st.best := by
  rcases hw : m.widthM with _ | w <;> simp [aggStep, hm, hw]

/-- The best-peak field after a rep with a defined peak: a strictly greater
value replaces the running best, anything else keeps it. -/
theorem aggStep_best_some (st : AggState) (i : ℕ) (m : Metrics) (v : ℚ)
    (hm : m.peakM = some v) :
    (aggStep st i m).best
      = match st.best with
        | none => some (i, v)
        | some jw => if jw.2 < v then some (i, v) else some jw := by
  rcases hb : st.best with _ | jw <;> rcases hw : m.widthM with _ | w <;>
    simp [aggStep, hm, hw, hb]

/-- Peeling the last rep off the summary loop. -/
theorem aggLoop_append (ms : List Metrics) : ∀ (i : ℕ) (st : AggState) (m : Metrics),
    aggLoop i st (ms ++ [m]) = aggStep (aggLoop i st ms) (i + ms.length) m := by
  induction ms with
  | nil => intro i st m; simp [aggLoop]
  | cons m0 rest ih =>
      intro i st m
      simp only [List.cons_append, aggLoop, List.append_eq]
      rw [ih]
      congr 1
      simp only [List.length_cons]
      omega

/-- C5: `averagePeakM` is the arithmetic mean of the defined peaks — reps
with a null peak contribute to neither the sum nor the denominator — and
is null when no rep has a defined peak; `averageWidthM` behaves the same
way over the defined widths. -/
theorem averages_over_defined_only (ms : List Metrics) :
    averagePeakM ms
      = (if ms.filterMap Metrics.peakM = [] then none
         else some ((ms.filterMap Metrics.peakM).sum
             / ((ms.filterMap Metrics.peakM).length : ℚ))) ∧
    averageWidthM ms
      = (if ms.filterMap Metrics.widthM = [] then none
         else some ((ms.filterMap Metrics.widthM).sum
             / ((ms.filterMap Metrics.widthM).length : ℚ))) := by
  obtain ⟨e1, e2, e3, e4⟩ := aggLoop_sums ms 0 initAgg
  simp only [averagePeakM, averageWidthM, aggregate]
  rw [e1, e2, e3, e4]
  simp [initAgg, List.length_eq_zero]

/-- C6: the best-peak tracker is `none` exactly when no rep has a defined
peak; otherwise it holds the index and value of the rep with the strictly
maximum defined peak, and — because the scan replaces the running best only
on strictly greater values — every earlier rep's defined peak is strictly
below it, so the first rep wins ties. -/
theorem bestPeakRep_characterization (ms : List Metrics) :
    (bestPeakRep ms = none ↔ ∀ m ∈ ms, m.peakM = none) ∧
    (∀ (k : ℕ) (v : ℚ), bestPeakRep ms = some (k, v) →
      (∃ mk : Metrics, ms[k]? = some mk ∧ mk.peakM = some v) ∧
      (∀ (j : ℕ) (mj : Metrics) (w : ℚ),
        ms[j]? = some mj → mj.peakM = some w → w ≤ v) ∧
      (∀ j : ℕ, j < k → ∀ (mj : Metrics) (w : ℚ),
        ms[j]? = some mj → mj.peakM = some w → w < v)) := by
  induction ms using List.reverseRecOn with
  | nil =>
      constructor
      · simp [bestPeakRep, aggregate, aggLoop, initAgg]
      · intro k v h
        simp [bestPeakRep, aggregate, aggLoop, initAgg] at h
  | append_singleton ms m ih =>
      have hsnoc : bestPeakRep (ms ++ [m]) = (aggStep (aggregate ms) ms.length m).best := by
        show (aggLoop 0 initAgg (ms ++ [m])).best = _
        rw [aggLoop_append, Nat.zero_add]
        rfl
      rcases hm : m.peakM with _ | v'
      · -- the appended rep has no defined peak: the tracker is untouched
        have hnew : bestPeakRep (ms ++ [m]) = bestPeakRep ms := by
          rw [hsnoc, aggStep_best_none _ _ _ hm]
          rfl
        constructor
        · rw [hnew, ih.1]
          constructor
          · intro hall m' hm'
            rcases List.mem_append.mp hm' with h | h
            · exact hall m' h
            · rw [List.mem_singleton.mp h]
              exact hm
          · intro hall m' hm'
            exact hall m' (List.mem_append_left _ hm')
        · intro k v hk
          rw [hnew] at hk
          obtain ⟨⟨m₀, hg, hpk⟩, hub, hfirst⟩ := ih.2 k v hk
          have hklt : k < ms.length := (List.getElem?_eq_some.mp hg).1
          refine ⟨⟨m₀, ?_, hpk⟩, ?_, ?_⟩
          · rw [List.getElem?_append, if_pos hklt]
            exact hg
          · intro j mj w hj hw
            rcases getElem?_concat_cases hj with ⟨_, hj'⟩ | ⟨_, hxeq⟩
            · exact hub j mj w hj' hw
            · subst hxeq
              rw [hm] at hw
              exact Option.noConfusion hw
          · intro j hjk mj w hj hw
            rcases getElem?_concat_cases hj with ⟨_, hj'⟩ | ⟨hjeq, _⟩
            · exact hfirst j hjk mj w hj' hw
            · exact absurd hjk (by omega)
      · -- the appended rep has a defined peak v'
        rcases hB : (aggregate ms).best with _ | jw₀
        · -- no previous best: the appended rep becomes the best
          have hall : ∀ m' ∈ ms, m'.peakM = none := (ih.1).mp hB
          have hnew : bestPeakRep (ms ++ [m]) = some (ms.length, v') := by
            rw [hsnoc, aggStep_best_some _ _ _ _ hm, hB]
          constructor
          · rw [hnew]
            constructor
            · intro h
              exact Option.noConfusion h
            · intro h
              have := h m (List.mem_append_right _ (List.mem_singleton_self m))
              rw [hm] at this
              exact Option.noConfusion this
          · intro k v hk
            rw [hnew] at hk
            simp only [Option.some.injEq, Prod.mk.injEq] at hk
            obtain ⟨hkeq, hveq⟩ := hk
            subst hkeq
            subst hveq
            refine ⟨⟨m, List.getElem?_concat_length ms m, hm⟩, ?_, ?_⟩
            · intro j mj w hj hw
              rcases getElem?_concat_cases hj with ⟨_, hj'⟩ | ⟨_, hxeq⟩
              · rw [hall mj (mem_of_getElem?_some hj')] at hw
                exact Option.noConfusion hw
              · subst hxeq
                rw [hm] at hw
                exact le_of_eq (Option.some.inj hw).symm
            · intro j hjk mj w hj hw
              rcases getElem?_concat_cases hj with ⟨_, hj'⟩ | ⟨hjeq, _⟩
              · rw [hall mj (mem_of_getElem?_some hj')] at hw
                exact Option.noConfusion hw
              · exact absurd hjk (by omega)
        · -- a previous best (j₀, w₀) exists
          obtain ⟨j₀, w₀⟩ := jw₀
          obtain ⟨⟨m₀, hg, hpk⟩, hub, hfirst⟩ := ih.2 j₀ w₀ hB
          have hj₀lt : j₀ < ms.length := (List.getElem?_eq_some.mp hg).1
          have hnotnone : ∀ h : ∀ m' ∈ ms ++ [m], m'.peakM = none, False := by
            intro h
            have := h m (List.mem_append_right _ (List.mem_singleton_self m))
            rw [hm] at this
            exact Option.noConfusion this
          by_cases hlt : w₀ < v'
          · -- strictly greater: the appended rep replaces the best
            have hnew : bestPeakRep (ms ++ [m]) = some (ms.length, v') := by
              rw [hsnoc, aggStep_best_some _ _ _ _ hm, hB]
              simp [hlt]
            constructor
            · rw [hnew]
              exact ⟨fun h => Option.noConfusion h, fun h => absurd h (fun h => hnotnone h)⟩
            · intro k v hk
              rw [hnew] at hk
              simp only [Option.some.injEq, Prod.mk.injEq] at hk
              obtain ⟨hkeq, hveq⟩ := hk
              subst hkeq
              subst hveq
              refine ⟨⟨m, List.getElem?_concat_length ms m, hm⟩, ?_, ?_⟩
              · intro j mj w hj hw
                rcases getElem?_concat_cases hj with ⟨_, hj'⟩ | ⟨_, hxeq⟩
                · exact le_trans (hub j mj w hj' hw) (le_of_lt hlt)
                · subst hxeq
                  rw [hm] at hw
                  exact le_of_eq (Option.some.inj hw).symm
              · intro j hjk mj w hj hw
                rcases getElem?_concat_cases hj with ⟨_, hj'⟩ | ⟨hjeq, _⟩
                · exact lt_of_le_of_lt (hub j mj w hj' hw) hlt
                · exact absurd hjk (by omega)
          · -- not strictly greater (a tie or smaller): the old best is kept
            have hnew : bestPeakRep (ms ++ [m]) = some (j₀, w₀) := by
              rw [hsnoc, aggStep_best_some _ _ _ _ hm, hB]
              simp [hlt]
            constructor
            · rw [hnew]
              exact ⟨fun h => Option.noConfusion h, fun h => absurd h (fun h => hnotnone h)⟩
            · intro k v hk
              rw [hnew] at hk
              simp only [Option.some.injEq, Prod.mk.injEq] at hk
              obtain ⟨hkeq, hveq⟩ := hk
              subst hkeq
              subst hveq
              refine ⟨⟨m₀, ?_, hpk⟩, ?_, ?_⟩
              · rw [List.getElem?_append, if_pos hj₀lt]
                exact hg
              · intro j mj w hj hw
                rcases getElem?_concat_cases hj with ⟨_, hj'⟩ | ⟨_, hxeq⟩
                · exact hub j mj w hj' hw
                · subst hxeq
                  rw [hm] at hw
                  rw [← Option.some.inj hw]
                  exact not_lt.mp hlt
              · intro j hjk mj w hj hw
                rcases getElem?_concat_cases hj with ⟨_, hj'⟩ | ⟨hjeq, _⟩
                · exact hfirst j hjk mj w hj' hw
                · exact absurd hjk (by omega)

/-- Witness for C6: two reps tie at peak 3; the first (index 0) wins. -/
theorem bestPeakRep_characterization_witness :
    bestPeakRep [(⟨some 3, some 57, some 2, some .right⟩ : Metrics),
                 ⟨some 3, some 57, none, none⟩] = some (0, 3) ∧
    (∃ mk : Metrics, [(⟨some 3, some 57, some 2, some .right⟩ : Metrics),
           ⟨some 3, some 57, none, none⟩][0]? = some mk ∧ mk.peakM = some 3) :=
  ⟨by norm_num [bestPeakRep, aggregate, aggLoop, aggStep, initAgg],
   ((bestPeakRep_characterization
      [⟨some 3, some 57, some 2, some .right⟩, ⟨some 3, some 57, none, none⟩]).2 0 3
      (by norm_num [bestPeakRep, aggregate, aggLoop, aggStep, initAgg])).1⟩

/-- Witness for C8: the scenario geometry, x = 400, y from 50 to 60. -/
theorem metersAboveNet_strictly_decreasing_witness :
    (finalizeCalibration corners1).pixelsPerMeter ≠ 0 ∧ (50 : ℚ) < 60 ∧
    ∃ a1 a2,
      metersAboveNetAtPoint (some (finalizeCalibration corners1).pixelsPerMeter)
        (some (finalizeCalibration corners1).topLine) 400 50 = some a1 ∧
      metersAboveNetAtPoint (some (finalizeCalibration corners1).pixelsPerMeter)
        (some (finalizeCalibration corners1).topLine) 400 60 = some a2 ∧
      a2 < a1 :=
  ⟨by norm_num [finalizeCalibration, corners1, hLeftOf, hRightOf, NET_HEIGHT_M],
   by norm_num,
   metersAboveNet_strictly_decreasing corners1 400 50 60
     (by norm_num [finalizeCalibration, corners1, hLeftOf, hRightOf, NET_HEIGHT_M])
     (by norm_num)⟩

end VolleyVision
